import Mathlib

/-!
# drtelemetry: the telemetry ingestion pipeline

A shallow embedding of `telemetry/telemetry.go`: the fixed-layout decoder behind
`ReadFromBytes`, the per-datagram handler `HandleConnection`, and the goroutine
started by `RunServer`, followed by the properties proved about them.
-/

namespace Telemetry

/-! ## Bytes and float32 -/

/-- A Go `byte`. -/
abbrev Byte := Fin 256

/-- A Go `float32`, represented by its IEEE-754 binary32 bit pattern, the view that
`math.Float32frombits` and `math.Float32bits` give of it. -/
abbrev float32 := Nat

/-- The function `math.Float32frombits` of Go: a bit cast. -/
def Float32frombits (b : Nat) : float32 := b

/-- The function `math.Float32bits` of Go: a bit cast. -/
def Float32bits (f : float32) : Nat := f

/-- A binary32 pattern is a NaN when its exponent bits are all ones and its fraction
is not zero. -/
def isNaN (f : Nat) : Prop := f / 2 ^ 23 % 256 = 255 ∧ f % 2 ^ 23 ≠ 0

instance (f : Nat) : Decidable (isNaN f) := by
  unfold isNaN
  infer_instance

/-- A NaN is signaling when the top bit of its fraction (bit 22) is 0. -/
def isSignalingNaN (f : Nat) : Prop := isNaN f ∧ f / 2 ^ 22 % 2 = 0

instance (f : Nat) : Decidable (isSignalingNaN f) := by
  unfold isSignalingNaN
  infer_instance

/-- The number a binary32 pattern denotes (IEEE 754): `none` for an infinity or a
NaN, otherwise sign, 8-bit biased exponent and 23-bit fraction read as a rational. -/
def float32Value (f : Nat) : Option ℚ :=
  let sign : ℚ := if f / 2 ^ 31 % 2 = 1 then -1 else 1
  let e : Nat := f / 2 ^ 23 % 256
  let m : Nat := f % 2 ^ 23
  let significand : Nat := 2 ^ 23 + m
  if e = 255 then none
  else if e = 0 then some (sign * (m : ℚ) / 2 ^ 149)
  else if 150 ≤ e then some (sign * (significand : ℚ) * 2 ^ (e - 150))
  else some (sign * (significand : ℚ) / 2 ^ (150 - e))

/-- What the target platform makes of `float32(float64(x))`, on bit patterns.
The decoder of encoding/binary stores a float32 field of a struct with
`v.SetFloat(float64(math.Float32frombits(d.uint32())))`, and `reflect.Value.SetFloat`
narrows the float64 again with `float32(x)`. IEEE 754 makes the two conversions
exact on every number and infinity and keeps a NaN a NaN; which bits the NaN has
is the platform's choice. -/
structure Platform where
  viaFloat64 : float32 → float32
  viaFloat64_exact : ∀ f, ¬ isNaN f → viaFloat64 f = f
  viaFloat64_nan : ∀ f, isNaN f → isNaN (viaFloat64 f)

/-- The platforms amd64 and arm64: converting a signaling NaN (`CVTSS2SD`, `FCVT`)
returns it quieted, that is with bit 22 set and the rest of the payload kept;
every other pattern comes back as it was. So the signaling NaN 0x7F800001 is stored
as 0x7FC00001. -/
def amd64 : Platform where
  viaFloat64 := fun (f : Nat) => if isSignalingNaN f then f + 2 ^ 22 else f
  viaFloat64_exact := fun (f : Nat) h => by
    have hs : ¬ isSignalingNaN f := fun hs => h hs.1
    simp only [if_neg hs]
  viaFloat64_nan := fun (f : Nat) h => by
    by_cases hs : isSignalingNaN f
    · simp only [if_pos hs]
      unfold isSignalingNaN isNaN at hs
      unfold isNaN
      omega
    · simp only [if_neg hs]
      exact h

/-- The method `binary.LittleEndian.Uint32`:
`uint32(b[0]) | uint32(b[1])<<8 | uint32(b[2])<<16 | uint32(b[3])<<24`.
Go panics on a slice shorter than four bytes; the decoder only calls it inside its
own buffer, and the model answers 0 there. -/
def Uint32 : List Byte → Nat
  | b0 :: b1 :: b2 :: b3 :: _ => b0.val ||| b1.val <<< 8 ||| b2.val <<< 16 ||| b3.val <<< 24
  | _ => 0

/-- The method `binary.LittleEndian.PutUint32`:
`b[0] = byte(v); b[1] = byte(v >> 8); b[2] = byte(v >> 16); b[3] = byte(v >> 24)`. -/
def PutUint32 (v : Nat) : List Byte :=
  [Fin.ofNat v, Fin.ofNat (v >>> 8), Fin.ofNat (v >>> 16), Fin.ofNat (v >>> 24)]

/-! ## TelemetryData -/

/-- The struct `TelemetryData`: 66 fields of type float32, in declaration order. -/
structure TelemetryData where
  Time : float32
  LapTime : float32
  LapDistance : float32
  TotalDistance : float32
  X : float32
  Y : float32
  Z : float32
  Speed : float32
  Xv : float32
  Yv : float32
  Zv : float32
  Xr : float32
  Yr : float32
  Zr : float32
  Xd : float32
  Yd : float32
  Zd : float32
  Susp_pos_bl : float32
  Susp_pos_br : float32
  Susp_pos_fl : float32
  Susp_pos_fr : float32
  Susp_vel_bl : float32
  Susp_vel_br : float32
  Susp_vel_fl : float32
  Susp_vel_fr : float32
  Wheel_speed_bl : float32
  Wheel_speed_br : float32
  Wheel_speed_fl : float32
  Wheel_speed_fr : float32
  Throttle : float32
  Steer : float32
  Brake : float32
  Clutch : float32
  Gear : float32
  Gforce_lat : float32
  Gforce_lon : float32
  Lap : float32
  EngineRate : float32
  Sli_pro_native_support : float32
  Car_position : float32
  Kers_level : float32
  Kers_max_level : float32
  Drs : float32
  Traction_control : float32
  Anti_lock_brakes : float32
  Fuel_in_tank : float32
  Fuel_capacity : float32
  In_pits : float32
  Sector : float32
  Sector1_time : float32
  Sector2_time : float32
  Brakes_temp_rl : float32
  Brakes_temp_rr : float32
  Brakes_temp_fl : float32
  Brakes_temp_fr : float32
  Tyre_pressure_rl : float32
  Tyre_pressure_rr : float32
  Tyre_pressure_fl : float32
  Tyre_pressure_fr : float32
  Laps_completed : float32
  Total_laps : float32
  Track_length : float32
  Last_lap_time : float32
  Max_rpm : float32
  Idle_rpm : float32
  Max_gears : float32

/-- The names of the fields of `TelemetryData`, in declaration order (what
`reflect` enumerates as `Field(0)`, `Field(1)`, ...). -/
def TelemetryData.fieldNames : List String :=
  ["Time", "LapTime", "LapDistance", "TotalDistance", "X", "Y", "Z", "Speed", "Xv", "Yv",
   "Zv", "Xr", "Yr", "Zr", "Xd", "Yd", "Zd", "Susp_pos_bl", "Susp_pos_br", "Susp_pos_fl",
   "Susp_pos_fr", "Susp_vel_bl", "Susp_vel_br", "Susp_vel_fl", "Susp_vel_fr",
   "Wheel_speed_bl", "Wheel_speed_br", "Wheel_speed_fl", "Wheel_speed_fr", "Throttle",
   "Steer", "Brake", "Clutch", "Gear", "Gforce_lat", "Gforce_lon", "Lap", "EngineRate",
   "Sli_pro_native_support", "Car_position", "Kers_level", "Kers_max_level", "Drs",
   "Traction_control", "Anti_lock_brakes", "Fuel_in_tank", "Fuel_capacity", "In_pits",
   "Sector", "Sector1_time", "Sector2_time", "Brakes_temp_rl", "Brakes_temp_rr",
   "Brakes_temp_fl", "Brakes_temp_fr", "Tyre_pressure_rl", "Tyre_pressure_rr",
   "Tyre_pressure_fl", "Tyre_pressure_fr", "Laps_completed", "Total_laps", "Track_length",
   "Last_lap_time", "Max_rpm", "Idle_rpm", "Max_gears"]

/-- The values of the fields in declaration order. -/
def TelemetryData.toList (t : TelemetryData) : List float32 :=
  [t.Time, t.LapTime, t.LapDistance, t.TotalDistance, t.X, t.Y, t.Z, t.Speed, t.Xv, t.Yv,
   t.Zv, t.Xr, t.Yr, t.Zr, t.Xd, t.Yd, t.Zd, t.Susp_pos_bl, t.Susp_pos_br, t.Susp_pos_fl,
   t.Susp_pos_fr, t.Susp_vel_bl, t.Susp_vel_br, t.Susp_vel_fl, t.Susp_vel_fr,
   t.Wheel_speed_bl, t.Wheel_speed_br, t.Wheel_speed_fl, t.Wheel_speed_fr, t.Throttle,
   t.Steer, t.Brake, t.Clutch, t.Gear, t.Gforce_lat, t.Gforce_lon, t.Lap, t.EngineRate,
   t.Sli_pro_native_support, t.Car_position, t.Kers_level, t.Kers_max_level, t.Drs,
   t.Traction_control, t.Anti_lock_brakes, t.Fuel_in_tank, t.Fuel_capacity, t.In_pits,
   t.Sector, t.Sector1_time, t.Sector2_time, t.Brakes_temp_rl, t.Brakes_temp_rr,
   t.Brakes_temp_fl, t.Brakes_temp_fr, t.Tyre_pressure_rl, t.Tyre_pressure_rr,
   t.Tyre_pressure_fl, t.Tyre_pressure_fr, t.Laps_completed, t.Total_laps, t.Track_length,
   t.Last_lap_time, t.Max_rpm, t.Idle_rpm, t.Max_gears]

/-- Assigning the i-th value of a list to the i-th field (`v.Field(i)`), for every
field; a position the list lacks gets the zero value. -/
def TelemetryData.ofList (l : List float32) : TelemetryData where
  Time := l.getD 0 0
  LapTime := l.getD 1 0
  LapDistance := l.getD 2 0
  TotalDistance := l.getD 3 0
  X := l.getD 4 0
  Y := l.getD 5 0
  Z := l.getD 6 0
  Speed := l.getD 7 0
  Xv := l.getD 8 0
  Yv := l.getD 9 0
  Zv := l.getD 10 0
  Xr := l.getD 11 0
  Yr := l.getD 12 0
  Zr := l.getD 13 0
  Xd := l.getD 14 0
  Yd := l.getD 15 0
  Zd := l.getD 16 0
  Susp_pos_bl := l.getD 17 0
  Susp_pos_br := l.getD 18 0
  Susp_pos_fl := l.getD 19 0
  Susp_pos_fr := l.getD 20 0
  Susp_vel_bl := l.getD 21 0
  Susp_vel_br := l.getD 22 0
  Susp_vel_fl := l.getD 23 0
  Susp_vel_fr := l.getD 24 0
  Wheel_speed_bl := l.getD 25 0
  Wheel_speed_br := l.getD 26 0
  Wheel_speed_fl := l.getD 27 0
  Wheel_speed_fr := l.getD 28 0
  Throttle := l.getD 29 0
  Steer := l.getD 30 0
  Brake := l.getD 31 0
  Clutch := l.getD 32 0
  Gear := l.getD 33 0
  Gforce_lat := l.getD 34 0
  Gforce_lon := l.getD 35 0
  Lap := l.getD 36 0
  EngineRate := l.getD 37 0
  Sli_pro_native_support := l.getD 38 0
  Car_position := l.getD 39 0
  Kers_level := l.getD 40 0
  Kers_max_level := l.getD 41 0
  Drs := l.getD 42 0
  Traction_control := l.getD 43 0
  Anti_lock_brakes := l.getD 44 0
  Fuel_in_tank := l.getD 45 0
  Fuel_capacity := l.getD 46 0
  In_pits := l.getD 47 0
  Sector := l.getD 48 0
  Sector1_time := l.getD 49 0
  Sector2_time := l.getD 50 0
  Brakes_temp_rl := l.getD 51 0
  Brakes_temp_rr := l.getD 52 0
  Brakes_temp_fl := l.getD 53 0
  Brakes_temp_fr := l.getD 54 0
  Tyre_pressure_rl := l.getD 55 0
  Tyre_pressure_rr := l.getD 56 0
  Tyre_pressure_fl := l.getD 57 0
  Tyre_pressure_fr := l.getD 58 0
  Laps_completed := l.getD 59 0
  Total_laps := l.getD 60 0
  Track_length := l.getD 61 0
  Last_lap_time := l.getD 62 0
  Max_rpm := l.getD 63 0
  Idle_rpm := l.getD 64 0
  Max_gears := l.getD 65 0


/-- The zero value of the struct (`var foo TelemetryData`). -/
def TelemetryData.zero : TelemetryData :=
  TelemetryData.ofList (List.replicate TelemetryData.fieldNames.length 0)

/-! ## binary.Read and ReadFromBytes -/

/-- The errors `io.ReadFull` can return when its source is a `bytes.Buffer`. -/
inductive ioError
  | EOF
  | ErrUnexpectedEOF
  deriving DecidableEq, Repr

/-- The encoded size of a float32 field (`binary.Size`). -/
def sizeofFloat32 : Nat := 4

/-- The function `dataSize` of encoding/binary on the struct: the sum of the
sizes of its fields. -/
def dataSize : Nat := (TelemetryData.fieldNames.map fun _ => sizeofFloat32).sum

/-- The call `io.ReadFull(r, buf)` with `r` a `bytes.Buffer` over the bytes `r` and
`len(buf) = n`: the next `n` bytes, `EOF` when the source is empty, and
`ErrUnexpectedEOF` when it ends before `n` bytes. -/
def ReadFull (r : List Byte) (n : Nat) : Except ioError (List Byte) :=
  if n ≤ r.length then .ok (r.take n)
  else if r.length = 0 then .error .EOF
  else .error .ErrUnexpectedEOF

/-- The decoder reading `n` consecutive float32 fields: each is set with
`v.SetFloat(float64(math.Float32frombits(d.uint32())))`, and `d.uint32()` consumes
four bytes. -/
def decoder.floats (p : Platform) : Nat → List Byte → List float32
  | 0, _ => []
  | n + 1, buf =>
    p.viaFloat64 (Float32frombits (Uint32 buf)) :: decoder.floats p n (buf.drop 4)

/-- The method `decoder.value` on the struct: one value per field, in declaration
order. -/
def decoder.value (p : Platform) (buf : List Byte) : TelemetryData :=
  TelemetryData.ofList (decoder.floats p TelemetryData.fieldNames.length buf)

/-- The call `binary.Read(r, binary.LittleEndian, data)` with `data` a
`*TelemetryData`: the error returned (`none` is nil) and the struct afterwards.
The whole record is read with `io.ReadFull` before any field is assigned. -/
def binary.Read (p : Platform) (r : List Byte) (data : TelemetryData) :
    Option ioError × TelemetryData :=
  match ReadFull r dataSize with
  | .error err => (some err, data)
  | .ok buf => (none, decoder.value p buf)

/-- The function `ReadFromBytes`: the error returned and `*telemetryData`
afterwards. -/
def ReadFromBytes (p : Platform) (data : List Byte) (telemetryData : TelemetryData) :
    Option ioError × TelemetryData :=
  match binary.Read p data telemetryData with
  | (some err, t) => (some err, t)
  | (none, t) => (none, t)

/-- Re-encoding with the layout of the struct, as the round-trip law words it: each
field in declaration order written as its 32-bit pattern, little-endian, no padding. -/
def encode (t : TelemetryData) : List Byte :=
  t.toList.foldr (fun f acc => PutUint32 (Float32bits f) ++ acc) []

/-! ## HandleConnection -/

/-- What the network hands to one call of `conn.ReadFromUDP`. -/
inductive ReadOutcome
  /-- The read returns a non-nil error. -/
  | failed
  /-- The read succeeds on a datagram with this payload. -/
  | datagram (payload : List Byte)

/-- A line written to standard output. -/
inductive Line
  /-- Printed by `fmt.Println("Wrong Address")`. -/
  | wrongAddress
  /-- Printed by `fmt.Println(err)` after `net.ListenUDP`. -/
  | listenError
  /-- Printed by `fmt.Printf("Listening for telemetry data on %s\n", udpAddr)`. -/
  | listening
  /-- Printed by `fmt.Println("Stopping telemetry server")`. -/
  | stopping
  /-- Printed by `fmt.Println("Error Reading")`. -/
  | errorReading
  /-- Printed by `fmt.Println(err)` after `conn.ReadFromUDP`. -/
  | readError
  /-- Printed by `fmt.Println(err)` after `binary.Read` in `HandleConnection`. -/
  | decodeError (err : ioError)
  deriving DecidableEq

/-- What the package has done so far: the values sent on `dataChannel`, oldest
first, and the lines printed. -/
structure Process where
  dataChannel : List TelemetryData
  stdout : List Line

/-- Printing one more line. -/
def Process.print (w : Process) (l : Line) : Process :=
  { w with stdout := w.stdout ++ [l] }

/-- The length of the buffer `HandleConnection` allocates (`make([]byte, 264)`). -/
def bufLen : Nat := 264

/-- The call `conn.ReadFromUDP(buf)` on the open socket: `none` when it returns an
error, otherwise `buf[:n]`, the payload cut to the length of the buffer. -/
def ReadFromUDP (o : ReadOutcome) : Option (List Byte) :=
  match o with
  | .failed => none
  | .datagram payload => some (payload.take bufLen)

/-- The `else` branch of `HandleConnection`: decode `buf[:n]` into a zero `foo`,
print the error if there is one, then send `foo` on `dataChannel`. -/
def HandleConnection.decodeAndSend (p : Platform) (bufn : List Byte) (w : Process) :
    Process :=
  match binary.Read p bufn TelemetryData.zero with
  | (some err, foo) =>
    { dataChannel := w.dataChannel ++ [foo], stdout := w.stdout ++ [.decodeError err] }
  | (none, foo) => { w with dataChannel := w.dataChannel ++ [foo] }

/-- The function `HandleConnection`, with the outcome of its read given. -/
def HandleConnection (p : Platform) (o : ReadOutcome) (w : Process) : Process :=
  match ReadFromUDP o with
  | none => (w.print .errorReading).print .readError
  | some bufn => HandleConnection.decodeAndSend p bufn w


/-! ## The goroutine of RunServer -/

/-- Where the goroutine started by `RunServer` is. -/
inductive Loc
  /-- The goroutine has not run yet. -/
  | Idle
  /-- At the `select` of the `for` loop, or inside `ReadFromUDP` after `default`. -/
  | Listening
  /-- In the `else` branch of `HandleConnection`, holding `buf[:n]`. -/
  | Decoding (bufn : List Byte)
  /-- The goroutine has ended. -/
  | Stopped

/-- What happens to the goroutine next. -/
inductive Event
  /-- The goroutine runs up to the loop; the flags say whether `net.ResolveUDPAddr`
  and `net.ListenUDP` succeed. -/
  | start (resolveOk listenOk : Bool)
  /-- One evaluation of the `select`: `quitClosed` says whether `quit` is closed at
  that moment, and `o` is how the read of `HandleConnection` ends if `default` is
  taken. -/
  | select (quitClosed : Bool) (o : ReadOutcome)
  /-- The `else` branch of `HandleConnection` runs to its end: the send on
  `dataChannel` is received. -/
  | deliver

/-- The state of the receiver. -/
structure Receiver where
  loc : Loc
  /-- Whether the socket is open. -/
  socketOpen : Bool
  /-- Whether the goroutine ended in a run-time panic. -/
  panicked : Bool
  /-- How often `HandleConnection` has been called. -/
  calls : Nat
  proc : Process

/-- The state before the goroutine runs. -/
def Receiver.init : Receiver :=
  { loc := .Idle, socketOpen := false, panicked := false, calls := 0,
    proc := { dataChannel := [], stdout := [] } }

/-- One step of the goroutine of `RunServer`. An event that cannot happen where the
goroutine is leaves the state as it is.

When `net.ListenUDP` fails it returns a nil `*UDPConn`, and the code only prints the
error and goes on: it prints the `Listening` line and executes
`defer udpConn.Close()`. `Close` is declared on the struct `conn` that `UDPConn`
embeds, so the call is `(&udpConn.conn).Close()`, and its receiver is evaluated when
the `defer` statement executes. Taking the address of a field through a nil pointer is
a run-time panic in Go, so the goroutine ends there, before the `for` loop (and the
unrecovered panic ends the program).

In the `select`, receiving from the closed `quit` can proceed, and `default` is
chosen only when no communication can: a closed `quit` always wins. The deferred
`Close` runs when the function returns. -/
def RunServer.step (p : Platform) (s : Receiver) : Event → Receiver
  | .start resolveOk listenOk =>
    match s.loc with
    | .Idle =>
      if resolveOk then
        if listenOk then
          { s with loc := .Listening, socketOpen := true,
                   proc := s.proc.print .listening }
        else
          { s with loc := .Stopped, panicked := true,
                   proc := (s.proc.print .listenError).print .listening }
      else { s with loc := .Stopped, proc := s.proc.print .wrongAddress }
    | _ => s
  | .select quitClosed o =>
    match s.loc with
    | .Listening =>
      if quitClosed then
        { s with loc := .Stopped, socketOpen := false, proc := s.proc.print .stopping }
      else
        match ReadFromUDP o with
        | none => { s with calls := s.calls + 1,
                           proc := (s.proc.print .errorReading).print .readError }
        | some bufn => { s with calls := s.calls + 1, loc := .Decoding bufn }
    | _ => s
  | .deliver =>
    match s.loc with
    | .Decoding bufn =>
      { s with loc := .Listening, proc := HandleConnection.decodeAndSend p bufn s.proc }
    | _ => s

/-- Running the goroutine through a sequence of events. -/
def RunServer.run (p : Platform) (s : Receiver) (evs : List Event) : Receiver :=
  evs.foldl (RunServer.step p) s

/-! ## Concrete inputs -/

/-- A 264-byte record, zero except for the pattern of 123.5 (0x42F70000) at offset 28
and of 3.0 (0x40400000) at offset 132. -/
def offsetRecord : List Byte :=
  List.replicate 28 0 ++ [0x00, 0x00, 0xF7, 0x42] ++ List.replicate 100 0
    ++ [0x00, 0x00, 0x40, 0x40] ++ List.replicate 128 0

/-- A 264-byte datagram, zero except for the pattern of 42.0 (0x42280000) at offset 28
and of 6.0 (0x40C00000) at offset 260. -/
def scenarioDatagram : List Byte :=
  List.replicate 28 0 ++ [0x00, 0x00, 0x28, 0x42] ++ List.replicate 228 0
    ++ [0x00, 0x00, 0xC0, 0x40]

/-- The sample of the scenario: `Speed` 42.0, `Max_gears` 6.0, every other field zero. -/
def scenarioSample : TelemetryData :=
  { TelemetryData.zero with Speed := 0x42280000, Max_gears := 0x40C00000 }

/-- A 264-byte record whose first word is the signaling NaN 0x7F800001, zero
elsewhere. -/
def signalingRecord : List Byte :=
  [0x01, 0x00, 0x80, 0x7F] ++ List.replicate 260 0

/-- The events of the goroutine receiving these datagrams one after another, each
decoded and sent before the next, with `quit` open throughout. -/
def receiveAll (ds : List (List Byte)) : List Event :=
  ds.foldr (fun d evs => Event.select false (ReadOutcome.datagram d) :: Event.deliver :: evs) []


/-! ## Little-endian words -/

theorem Uint32_cons4 (b0 b1 b2 b3 : Byte) (r : List Byte) :
    Uint32 (b0 :: b1 :: b2 :: b3 :: r)
      = b0.val + 2 ^ 8 * b1.val + 2 ^ 16 * b2.val + 2 ^ 24 * b3.val := by
  have h0 := b0.isLt
  have h1 := b1.isLt
  have h2 := b2.isLt
  have e1 : b0.val ||| b1.val <<< 8 = 2 ^ 8 * b1.val + b0.val := by
    rw [Nat.shiftLeft_eq, Nat.or_comm, Nat.mul_comm, ← Nat.mul_add_lt_is_or (by omega)]
  have e2 : (2 ^ 8 * b1.val + b0.val) ||| b2.val <<< 16
      = 2 ^ 16 * b2.val + (2 ^ 8 * b1.val + b0.val) := by
    rw [Nat.shiftLeft_eq, Nat.or_comm, Nat.mul_comm, ← Nat.mul_add_lt_is_or (by omega)]
  have e3 : (2 ^ 16 * b2.val + (2 ^ 8 * b1.val + b0.val)) ||| b3.val <<< 24
      = 2 ^ 24 * b3.val + (2 ^ 16 * b2.val + (2 ^ 8 * b1.val + b0.val)) := by
    rw [Nat.shiftLeft_eq, Nat.or_comm, Nat.mul_comm, ← Nat.mul_add_lt_is_or (by omega)]
  simp only [Uint32]
  rw [e1, e2, e3]
  omega

theorem PutUint32_Uint32 (b0 b1 b2 b3 : Byte) (r : List Byte) :
    PutUint32 (Uint32 (b0 :: b1 :: b2 :: b3 :: r)) = [b0, b1, b2, b3] := by
  have h0 := b0.isLt
  have h1 := b1.isLt
  have h2 := b2.isLt
  have h3 := b3.isLt
  rw [Uint32_cons4]
  simp only [PutUint32, Nat.shiftRight_eq_div_pow]
  refine congrArg₂ _ ?_ (congrArg₂ _ ?_ (congrArg₂ _ ?_ (congrArg₂ _ ?_ rfl))) <;>
    apply Fin.ext <;> simp only [Fin.ofNat] <;> omega

theorem Uint32_lt (l : List Byte) : Uint32 l < 2 ^ 32 := by
  match l with
  | b0 :: b1 :: b2 :: b3 :: r =>
    have h0 := b0.isLt
    have h1 := b1.isLt
    have h2 := b2.isLt
    have h3 := b3.isLt
    rw [Uint32_cons4]
    omega
  | [] => simp [Uint32]
  | [_] => simp [Uint32]
  | [_, _] => simp [Uint32]
  | [_, _, _] => simp [Uint32]

theorem Uint32_take4 (l : List Byte) : Uint32 (l.take 4) = Uint32 l := by
  match l with
  | b0 :: b1 :: b2 :: b3 :: r => rfl
  | [] => rfl
  | [_] => rfl
  | [_, _] => rfl
  | [_, _, _] => rfl

theorem PutUint32_drop (data : List Byte) (i : Nat) (h : i + 4 ≤ data.length) :
    PutUint32 (Uint32 (data.drop i)) = (data.drop i).take 4 := by
  have hl : 4 ≤ (data.drop i).length := by rw [List.length_drop]; omega
  match data.drop i, hl with
  | b0 :: b1 :: b2 :: b3 :: r, _ => rw [PutUint32_Uint32]; rfl
  | [], hl => simp at hl
  | [_], hl => simp at hl
  | [_, _], hl => simp at hl
  | [_, _, _], hl => simp at hl

theorem Float32bits_frombits (b : Nat) : Float32bits (Float32frombits b) = b := rfl

/-! ## The decoder -/

theorem dataSize_eq : dataSize = 264 := by decide

theorem fieldNames_length : TelemetryData.fieldNames.length = 66 := by decide

theorem floats_length (p : Platform) (n : Nat) (buf : List Byte) :
    (decoder.floats p n buf).length = n := by
  induction n generalizing buf with
  | zero => rfl
  | succ n ih => simp [decoder.floats, ih]

theorem floats_getD (p : Platform) (n : Nat) (buf : List Byte) (k : Nat) (hk : k < n) :
    (decoder.floats p n buf).getD k 0 = p.viaFloat64 (Uint32 (buf.drop (4 * k))) := by
  induction n generalizing buf k with
  | zero => omega
  | succ n ih =>
    cases k with
    | zero => simp [decoder.floats, Float32frombits]
    | succ k =>
      have h := ih (buf.drop 4) k (by omega)
      simp only [decoder.floats, List.getD_cons_succ, h, List.drop_drop]
      congr 3
      omega

theorem floats_encode (p : Platform) (n : Nat) (buf : List Byte) (h : 4 * n ≤ buf.length)
    (hfix : ∀ k, k < n →
      p.viaFloat64 (Uint32 (buf.drop (4 * k))) = Uint32 (buf.drop (4 * k))) :
    (decoder.floats p n buf).foldr (fun f acc => PutUint32 (Float32bits f) ++ acc) []
      = buf.take (4 * n) := by
  induction n generalizing buf with
  | zero => simp [decoder.floats]
  | succ n ih =>
    match buf, h, hfix with
    | b0 :: b1 :: b2 :: b3 :: r, h, hfix =>
      have hr : 4 * n ≤ r.length := by simp only [List.length_cons] at h; omega
      have e : 4 * (n + 1) = 4 * n + 1 + 1 + 1 + 1 := by omega
      have h0 := hfix 0 (by omega)
      simp only [Nat.mul_zero, List.drop_zero] at h0
      have hr' : ∀ k, k < n →
          p.viaFloat64 (Uint32 (r.drop (4 * k))) = Uint32 (r.drop (4 * k)) := by
        intro k hk
        have := hfix (k + 1) (by omega)
        have e' : 4 * (k + 1) = 4 * k + 1 + 1 + 1 + 1 := by omega
        simpa only [e', List.drop_succ_cons] using this
      simp only [decoder.floats, List.foldr_cons, Float32frombits, h0, Float32bits,
        PutUint32_Uint32, List.drop_succ_cons, List.drop_zero, e, List.take_succ_cons,
        List.cons_append, List.nil_append]
      have ih' := ih r hr hr'
      simp only [Float32bits] at ih'
      rw [ih']
    | [], h, _ => simp at h
    | [_], h, _ => simp at h; omega
    | [_, _], h, _ => simp at h; omega
    | [_, _, _], h, _ => simp at h; omega

theorem floats_take (p : Platform) (n : Nat) (buf : List Byte) (m : Nat) (h : 4 * n ≤ m) :
    decoder.floats p n (buf.take m) = decoder.floats p n buf := by
  induction n generalizing buf m with
  | zero => rfl
  | succ n ih =>
    match buf with
    | b0 :: b1 :: b2 :: b3 :: r =>
      obtain ⟨m', rfl⟩ : ∃ m', m = m' + 4 := ⟨m - 4, by omega⟩
      simp only [decoder.floats, List.take_succ_cons, List.drop_succ_cons, List.drop_zero, Uint32]
      rw [ih r m' (by omega)]
    | [] => rw [List.take_of_length_le (by simp)]
    | [_] => rw [List.take_of_length_le (by simp; omega)]
    | [_, _] => rw [List.take_of_length_le (by simp; omega)]
    | [_, _, _] => rw [List.take_of_length_le (by simp; omega)]

theorem getD_range_map (l : List float32) :
    (List.range l.length).map (fun i => l.getD i 0) = l := by
  apply List.ext_getElem
  · simp
  · intro i h1 h2
    simp [List.getD_eq_getElem?_getD, h2]

set_option maxRecDepth 100000 in
theorem toList_ofList (l : List float32) (h : l.length = 66) :
    (TelemetryData.ofList l).toList = l := by
  have e : (TelemetryData.ofList l).toList = (List.range 66).map (fun i => l.getD i 0) := by
    rfl
  rw [e, ← h]
  exact getD_range_map l

theorem value_toList (p : Platform) (buf : List Byte) :
    (decoder.value p buf).toList = decoder.floats p 66 buf := by
  rw [decoder.value, fieldNames_length]
  exact toList_ofList _ (floats_length p 66 buf)

theorem value_take (p : Platform) (buf : List Byte) (m : Nat) (h : 264 ≤ m) :
    decoder.value p (buf.take m) = decoder.value p buf := by
  rw [decoder.value, decoder.value, fieldNames_length, floats_take p 66 buf m (by omega)]

theorem value_getD (p : Platform) (data : List Byte) (k : Nat) (hk : k < 66) :
    (decoder.value p data).toList.getD k 0 = p.viaFloat64 (Uint32 (data.drop (4 * k))) := by
  rw [value_toList, floats_getD p 66 data k hk]

theorem ReadFromBytes_of_le (p : Platform) (data : List Byte) (t : TelemetryData)
    (h : 264 ≤ data.length) :
    ReadFromBytes p data t = (none, decoder.value p data) := by
  simp only [ReadFromBytes, binary.Read, ReadFull, dataSize_eq, if_pos h]
  rw [value_take p data 264 (by omega)]

theorem ReadFromBytes_of_lt (p : Platform) (data : List Byte) (t : TelemetryData)
    (h : data.length < 264) :
    ReadFromBytes p data t
      = (some (if data.length = 0 then ioError.EOF else ioError.ErrUnexpectedEOF), t) := by
  have h' : ¬ 264 ≤ data.length := by omega
  simp only [ReadFromBytes, binary.Read, ReadFull, dataSize_eq, if_neg h']
  by_cases h0 : data.length = 0
  · simp only [if_pos h0]
  · simp only [if_neg h0]

theorem binary_Read_eq (p : Platform) (r : List Byte) (t : TelemetryData) :
    binary.Read p r t = ReadFromBytes p r t := by
  rw [ReadFromBytes]
  split <;> simp_all


/-! ## ReadFromBytes -/

theorem ne_isNaN_fixed (p : Platform) (data : List Byte)
    (hnan : ∀ k, k < 66 → ¬ isNaN (Uint32 (data.drop (4 * k)))) :
    ∀ k, k < 66 →
      p.viaFloat64 (Uint32 (data.drop (4 * k))) = Uint32 (data.drop (4 * k)) :=
  fun k hk => p.viaFloat64_exact _ (hnan k hk)

theorem amd64_fixed (w : Nat) (h : ¬ isSignalingNaN w) : amd64.viaFloat64 w = w := by
  simp only [amd64, if_neg h]

theorem encode_value (p : Platform) (data : List Byte) (h : 264 ≤ data.length)
    (hfix : ∀ k, k < 66 →
      p.viaFloat64 (Uint32 (data.drop (4 * k))) = Uint32 (data.drop (4 * k))) :
    encode (decoder.value p data) = data.take 264 := by
  rw [encode, value_toList]
  exact floats_encode p 66 data (by omega) hfix

set_option maxRecDepth 100000 in
theorem signalingRecord_length : signalingRecord.length = 264 := by decide

set_option maxRecDepth 100000 in
theorem signalingRecord_Time :
    (decoder.value amd64 signalingRecord).Time = 0x7FC00001 := by decide

set_option maxRecDepth 100000 in
theorem offsetRecord_length : offsetRecord.length = 264 := by decide

set_option maxRecDepth 100000 in
theorem offsetRecord_words :
    (offsetRecord.drop 28).take 4 = [0x00, 0x00, 0xF7, 0x42] ∧
    (offsetRecord.drop 132).take 4 = [0x00, 0x00, 0x40, 0x40] := by decide

set_option maxRecDepth 100000 in
theorem scenarioDatagram_length : scenarioDatagram.length = 264 := by decide

set_option maxRecDepth 100000 in
theorem scenarioDatagram_not_NaN :
    ∀ k, k < 66 → ¬ isNaN (Uint32 (scenarioDatagram.drop (4 * k))) := by decide

/-- C1: for every byte sequence shorter than 264 bytes (the empty one and those that
end inside a field included) `ReadFromBytes` returns a non-nil error and leaves the
`TelemetryData` it was given exactly as it was. -/
theorem ReadFromBytes_short_input (p : Platform) (data : List Byte)
    (telemetryData : TelemetryData) (h : data.length < 264) :
    (ReadFromBytes p data telemetryData).1 ≠ none ∧
    (ReadFromBytes p data telemetryData).2 = telemetryData := by
  rw [ReadFromBytes_of_lt p data telemetryData h]
  exact ⟨by simp, rfl⟩

theorem ReadFromBytes_short_input_witness :
    ([1, 2, 3, 4, 5] : List Byte).length < 264 ∧
    (ReadFromBytes amd64 [1, 2, 3, 4, 5] scenarioSample).1 ≠ none ∧
    (ReadFromBytes amd64 [1, 2, 3, 4, 5] scenarioSample).2 = scenarioSample :=
  ⟨by decide, ReadFromBytes_short_input amd64 [1, 2, 3, 4, 5] scenarioSample (by decide)⟩

/-- C2, as stated, fails: on amd64 the 264-byte record whose first word is the
signaling NaN 0x7F800001 decodes without error, and re-encoding the result does not
give the record back (`Time` holds the quieted 0x7FC00001). -/
theorem roundtrip_fails_on_signaling_NaN :
    264 ≤ signalingRecord.length ∧
    (ReadFromBytes amd64 signalingRecord TelemetryData.zero).1 = none ∧
    encode (ReadFromBytes amd64 signalingRecord TelemetryData.zero).2
      ≠ signalingRecord.take 264 := by
  have hl : 264 ≤ signalingRecord.length := by rw [signalingRecord_length]
  rw [ReadFromBytes_of_le amd64 signalingRecord _ hl]
  refine ⟨hl, rfl, ?_⟩
  intro he
  have h2 := congrArg (fun l => l.getD 2 0) he
  simp only [encode, TelemetryData.toList, List.foldr_cons, signalingRecord_Time,
    PutUint32, Float32bits] at h2
  revert h2
  decide

/-- C2 (amended): for every byte sequence of at least 264 bytes `ReadFromBytes`
succeeds, and re-encoding the decoded `TelemetryData` with the same layout yields
exactly the first 264 bytes of the input when none of the 66 little-endian words of
that prefix is a NaN pattern; on amd64 it is enough that none is a signaling NaN. -/
theorem ReadFromBytes_roundtrip (p : Platform) (data : List Byte)
    (telemetryData : TelemetryData) (h : 264 ≤ data.length) :
    (ReadFromBytes p data telemetryData).1 = none ∧
    ((∀ k, k < 66 → ¬ isNaN (Uint32 (data.drop (4 * k)))) →
      encode (ReadFromBytes p data telemetryData).2 = data.take 264) ∧
    ((∀ k, k < 66 → ¬ isSignalingNaN (Uint32 (data.drop (4 * k)))) →
      encode (ReadFromBytes amd64 data telemetryData).2 = data.take 264) := by
  rw [ReadFromBytes_of_le p data telemetryData h, ReadFromBytes_of_le amd64 data telemetryData h]
  refine ⟨rfl, fun hnan => ?_, fun hs => ?_⟩
  · exact encode_value p data h (ne_isNaN_fixed p data hnan)
  · exact encode_value amd64 data h (fun k hk => amd64_fixed _ (hs k hk))

theorem ReadFromBytes_roundtrip_witness :
    264 ≤ scenarioDatagram.length ∧
    encode (ReadFromBytes amd64 scenarioDatagram TelemetryData.zero).2
      = scenarioDatagram.take 264 :=
  ⟨by rw [scenarioDatagram_length],
   (ReadFromBytes_roundtrip amd64 scenarioDatagram TelemetryData.zero
      (by rw [scenarioDatagram_length])).2.1 scenarioDatagram_not_NaN⟩


/-- C3, as stated, fails: on amd64 the 264-byte record whose bytes 0..3 are the
little-endian bytes of the signaling NaN 0x7F800001 decodes to a `Time` with the
pattern 0x7FC00001, whose little-endian bytes are not bytes 0..3 of the record. -/
theorem field_differs_on_signaling_NaN :
    signalingRecord.length = 264 ∧
    Uint32 (signalingRecord.drop (4 * 0)) = 0x7F800001 ∧
    (ReadFromBytes amd64 signalingRecord TelemetryData.zero).2.Time = 0x7FC00001 ∧
    PutUint32 (Float32bits (ReadFromBytes amd64 signalingRecord TelemetryData.zero).2.Time)
      ≠ (signalingRecord.drop (4 * 0)).take 4 := by
  rw [ReadFromBytes_of_le amd64 signalingRecord _ (by rw [signalingRecord_length])]
  refine ⟨signalingRecord_length, by decide, signalingRecord_Time, ?_⟩
  show PutUint32 (Float32bits (decoder.value amd64 signalingRecord).Time) ≠ _
  rw [signalingRecord_Time]
  decide

/-- C3 (amended): for every 264-byte record `ReadFromBytes` sets the k-th field in
declaration order (k = 0..65) to the float32 read from the little-endian bytes
4k..4k+3: it has exactly that bit pattern when the word is not a NaN pattern, and is
a NaN when it is. `Time` comes from offset 0, `Speed` from 28, `Gear` from 132 and
`Max_gears` from 260, and a record carrying the pattern of 123.5 (0x42F70000) at
offset 28 and of 3.0 (0x40400000) at offset 132 decodes to `Speed` 123.5 and
`Gear` 3.0. -/
theorem ReadFromBytes_field_offsets (p : Platform) (data : List Byte)
    (telemetryData : TelemetryData) (h : data.length = 264) :
    (ReadFromBytes p data telemetryData).1 = none ∧
    (ReadFromBytes p data telemetryData).2.toList.length = 66 ∧
    (∀ k, k < 66 →
      (ReadFromBytes p data telemetryData).2.toList.getD k 0
        = p.viaFloat64 (Float32frombits (Uint32 (data.drop (4 * k)))) ∧
      (isNaN ((ReadFromBytes p data telemetryData).2.toList.getD k 0)
        ↔ isNaN (Uint32 (data.drop (4 * k)))) ∧
      (¬ isNaN (Uint32 (data.drop (4 * k))) →
        (ReadFromBytes p data telemetryData).2.toList.getD k 0
          = Uint32 (data.drop (4 * k)) ∧
        PutUint32 (Float32bits ((ReadFromBytes p data telemetryData).2.toList.getD k 0))
          = (data.drop (4 * k)).take 4)) ∧
    (ReadFromBytes p data telemetryData).2.Time
      = p.viaFloat64 (Float32frombits (Uint32 (data.drop 0))) ∧
    (ReadFromBytes p data telemetryData).2.Speed
      = p.viaFloat64 (Float32frombits (Uint32 (data.drop 28))) ∧
    (ReadFromBytes p data telemetryData).2.Gear
      = p.viaFloat64 (Float32frombits (Uint32 (data.drop 132))) ∧
    (ReadFromBytes p data telemetryData).2.Max_gears
      = p.viaFloat64 (Float32frombits (Uint32 (data.drop 260))) ∧
    ((data.drop 28).take 4 = [0x00, 0x00, 0xF7, 0x42] →
      (data.drop 132).take 4 = [0x00, 0x00, 0x40, 0x40] →
      (ReadFromBytes p data telemetryData).2.Speed = 0x42F70000 ∧
      float32Value (ReadFromBytes p data telemetryData).2.Speed = some (247 / 2) ∧
      (ReadFromBytes p data telemetryData).2.Gear = 0x40400000 ∧
      float32Value (ReadFromBytes p data telemetryData).2.Gear = some 3) := by
  rw [ReadFromBytes_of_le p data telemetryData (by omega)]
  have key : ∀ k, k < 66 → (decoder.value p data).toList.getD k 0
      = p.viaFloat64 (Float32frombits (Uint32 (data.drop (4 * k)))) :=
    fun k hk => value_getD p data k hk
  refine ⟨rfl, ?_, ?_, key 0 (by omega), key 7 (by omega), key 33 (by omega),
    key 65 (by omega), ?_⟩
  · show (decoder.value p data).toList.length = 66
    rw [value_toList, floats_length]
  · intro k hk
    refine ⟨key k hk, ?_, ?_⟩
    · show isNaN ((decoder.value p data).toList.getD k 0) ↔ _
      rw [key k hk, Float32frombits]
      constructor
      · intro hn
        by_contra hc
        rw [p.viaFloat64_exact _ hc] at hn
        exact hc hn
      · exact p.viaFloat64_nan _
    · intro hn
      show (decoder.value p data).toList.getD k 0 = _ ∧
        PutUint32 (Float32bits ((decoder.value p data).toList.getD k 0)) = _
      rw [key k hk, Float32frombits, p.viaFloat64_exact _ hn, Float32bits]
      exact ⟨rfl, PutUint32_drop data (4 * k) (by omega)⟩
  · intro h1 h2
    have e1 : (decoder.value p data).Speed = p.viaFloat64 (Uint32 (data.drop 28)) :=
      key 7 (by omega)
    have e2 : (decoder.value p data).Gear = p.viaFloat64 (Uint32 (data.drop 132)) :=
      key 33 (by omega)
    have v1 : Uint32 (data.drop 28) = 0x42F70000 := by
      rw [← Uint32_take4, h1]; decide
    have v2 : Uint32 (data.drop 132) = 0x40400000 := by
      rw [← Uint32_take4, h2]; decide
    have n1 : p.viaFloat64 0x42F70000 = 0x42F70000 := p.viaFloat64_exact _ (by decide)
    have n2 : p.viaFloat64 0x40400000 = 0x40400000 := p.viaFloat64_exact _ (by decide)
    show (decoder.value p data).Speed = _ ∧ float32Value (decoder.value p data).Speed = _ ∧
      (decoder.value p data).Gear = _ ∧ float32Value (decoder.value p data).Gear = _
    rw [e1, e2, v1, v2, n1, n2]
    refine ⟨rfl, ?_, rfl, ?_⟩ <;> norm_num [float32Value]

theorem ReadFromBytes_field_offsets_witness :
    offsetRecord.length = 264 ∧
    float32Value (ReadFromBytes amd64 offsetRecord TelemetryData.zero).2.Speed
      = some (247 / 2) ∧
    float32Value (ReadFromBytes amd64 offsetRecord TelemetryData.zero).2.Gear = some 3 :=
  ⟨offsetRecord_length,
   ((ReadFromBytes_field_offsets amd64 offsetRecord TelemetryData.zero
      offsetRecord_length).2.2.2.2.2.2.2 offsetRecord_words.1 offsetRecord_words.2).2.1,
   ((ReadFromBytes_field_offsets amd64 offsetRecord TelemetryData.zero
      offsetRecord_length).2.2.2.2.2.2.2 offsetRecord_words.1 offsetRecord_words.2).2.2.2⟩

/-- C6: the codec considers only the leading 264 bytes: for every byte sequence `p0`
of length 264 and every sequence `t` of trailing bytes, `ReadFromBytes` on `p0 ++ t`
succeeds and yields the same `TelemetryData` as on `p0` alone. -/
theorem ReadFromBytes_leading_bytes (p : Platform) (p0 t : List Byte)
    (telemetryData : TelemetryData) (h : p0.length = 264) :
    (ReadFromBytes p (p0 ++ t) telemetryData).1 = none ∧
    (ReadFromBytes p p0 telemetryData).1 = none ∧
    (ReadFromBytes p (p0 ++ t) telemetryData).2 = (ReadFromBytes p p0 telemetryData).2 := by
  have hp : 264 ≤ (p0 ++ t).length := by rw [List.length_append]; omega
  have e : decoder.value p (p0 ++ t) = decoder.value p p0 := by
    rw [← value_take p (p0 ++ t) 264 (by omega), ← h, List.take_left']
    rfl
  rw [ReadFromBytes_of_le p (p0 ++ t) telemetryData hp,
    ReadFromBytes_of_le p p0 telemetryData (by omega), e]
  exact ⟨rfl, rfl, rfl⟩

theorem ReadFromBytes_leading_bytes_witness :
    scenarioDatagram.length = 264 ∧
    (ReadFromBytes amd64 (scenarioDatagram ++ [7, 7, 7]) TelemetryData.zero).2
      = (ReadFromBytes amd64 scenarioDatagram TelemetryData.zero).2 :=
  ⟨scenarioDatagram_length,
   (ReadFromBytes_leading_bytes amd64 scenarioDatagram [7, 7, 7] TelemetryData.zero
      scenarioDatagram_length).2.2⟩


/-! ## HandleConnection -/

theorem HandleConnection_of_le (p : Platform) (payload : List Byte) (w : Process)
    (h : 264 ≤ payload.length) :
    HandleConnection p (.datagram payload) w
      = { w with dataChannel := w.dataChannel ++ [decoder.value p payload] } := by
  have hl : 264 ≤ (payload.take bufLen).length := by
    rw [List.length_take, bufLen]; omega
  simp only [HandleConnection, ReadFromUDP, HandleConnection.decodeAndSend,
    binary_Read_eq, ReadFromBytes_of_le _ _ _ hl]
  rw [bufLen, value_take p payload 264 (by omega)]

theorem HandleConnection_of_lt (p : Platform) (payload : List Byte) (w : Process)
    (h : payload.length < 264) :
    HandleConnection p (.datagram payload) w
      = { dataChannel := w.dataChannel ++ [TelemetryData.zero],
          stdout := w.stdout ++ [.decodeError
            (if payload.length = 0 then ioError.EOF else ioError.ErrUnexpectedEOF)] } := by
  have e : payload.take bufLen = payload := List.take_of_length_le (by rw [bufLen]; omega)
  simp only [HandleConnection, ReadFromUDP, HandleConnection.decodeAndSend,
    binary_Read_eq, e, ReadFromBytes_of_lt _ _ _ h]

set_option maxRecDepth 100000 in
theorem value_scenarioDatagram (p : Platform) :
    decoder.value p scenarioDatagram = scenarioSample := by
  have e : decoder.value p scenarioDatagram
      = TelemetryData.ofList ((List.replicate 7 (p.viaFloat64 0)) ++ [p.viaFloat64 0x42280000]
          ++ List.replicate 57 (p.viaFloat64 0) ++ [p.viaFloat64 0x40C00000]) := by
    rfl
  rw [e, p.viaFloat64_exact 0 (by decide), p.viaFloat64_exact 0x42280000 (by decide),
    p.viaFloat64_exact 0x40C00000 (by decide)]
  rfl

/-- C4, the code at a short datagram: a 3-byte datagram that is read without error
fails to decode (`ReadFromBytes` reports `ErrUnexpectedEOF`), the error is printed,
and the zero-valued `TelemetryData` is sent on `dataChannel` all the same; a failed
read sends nothing. -/
theorem HandleConnection_short_datagram_is_sent :
    ReadFromBytes amd64 [1, 2, 3] TelemetryData.zero
      = (some ioError.ErrUnexpectedEOF, TelemetryData.zero) ∧
    HandleConnection amd64 (.datagram [1, 2, 3]) { dataChannel := [], stdout := [] }
      = { dataChannel := [TelemetryData.zero],
          stdout := [.decodeError ioError.ErrUnexpectedEOF] } ∧
    HandleConnection amd64 .failed { dataChannel := [], stdout := [] }
      = { dataChannel := [], stdout := [.errorReading, .readError] } := by
  refine ⟨?_, ?_, rfl⟩
  · exact ReadFromBytes_of_lt amd64 [1, 2, 3] TelemetryData.zero (by decide)
  · exact HandleConnection_of_lt amd64 [1, 2, 3] _ (by decide)

/-- C5: for every datagram of exactly 264 bytes that is read without error
`HandleConnection` sends exactly one sample on `dataChannel`, the one `ReadFromBytes`
decodes from the same bytes; for the all-zero datagram with the pattern of 42.0 at
offset 28 and of 6.0 at offset 260 that sample has `Speed` 42.0, `Max_gears` 6.0 and
every other field zero. -/
theorem HandleConnection_full_datagram (p : Platform) (payload : List Byte) (w : Process)
    (h : payload.length = 264) :
    (HandleConnection p (.datagram payload) w).dataChannel
        = w.dataChannel ++ [(ReadFromBytes p payload TelemetryData.zero).2] ∧
    (HandleConnection p (.datagram payload) w).stdout = w.stdout ∧
    (∀ t, ReadFromBytes p payload t
        = (none, (ReadFromBytes p payload TelemetryData.zero).2)) ∧
    (HandleConnection p (.datagram scenarioDatagram)
        { dataChannel := [], stdout := [] }).dataChannel = [scenarioSample] ∧
    float32Value scenarioSample.Speed = some 42 ∧
    float32Value scenarioSample.Max_gears = some 6 ∧
    scenarioSample.toList
        = List.replicate 7 0 ++ [0x42280000] ++ List.replicate 57 0 ++ [0x40C00000] ∧
    float32Value 0 = some 0 := by
  rw [HandleConnection_of_le p payload w (by omega)]
  refine ⟨?_, rfl, ?_, ?_, ?_, ?_, ?_, ?_⟩
  · rw [ReadFromBytes_of_le p payload _ (by omega)]
  · intro t
    rw [ReadFromBytes_of_le p payload _ (by omega), ReadFromBytes_of_le p payload _ (by omega)]
  · rw [HandleConnection_of_le p scenarioDatagram _ (by rw [scenarioDatagram_length]),
      value_scenarioDatagram]
    rfl
  · norm_num [float32Value, scenarioSample]
  · norm_num [float32Value, scenarioSample]
  · rfl
  · norm_num [float32Value]

theorem HandleConnection_full_datagram_witness :
    scenarioDatagram.length = 264 ∧
    (HandleConnection amd64 (.datagram scenarioDatagram)
        { dataChannel := [], stdout := [] }).dataChannel = [scenarioSample] :=
  ⟨scenarioDatagram_length,
   (HandleConnection_full_datagram amd64 scenarioDatagram { dataChannel := [], stdout := [] }
      scenarioDatagram_length).2.2.2.1⟩

/-- C10: the record size the decoder consumes is the sum of the sizes of the 66
float32 fields, 4 bytes each, that is 264 bytes, the length of the buffer
`HandleConnection` allocates; so a datagram that fills the buffer always decodes, and
decoding in `HandleConnection` fails exactly when fewer than 264 bytes were
received. -/
theorem record_size_is_buffer_length :
    sizeofFloat32 = 4 ∧
    TelemetryData.fieldNames.length = 66 ∧
    dataSize = (TelemetryData.fieldNames.map fun _ => sizeofFloat32).sum ∧
    dataSize = TelemetryData.fieldNames.length * sizeofFloat32 ∧
    dataSize = 264 ∧
    bufLen = dataSize ∧
    (∀ p payload bufn, ReadFromUDP (.datagram payload) = some bufn →
      bufn.length ≤ bufLen ∧
      (bufn.length = bufLen → (binary.Read p bufn TelemetryData.zero).1 = none) ∧
      ((binary.Read p bufn TelemetryData.zero).1 ≠ none ↔ bufn.length < 264)) ∧
    (∀ p payload w,
      (∃ err, (HandleConnection p (.datagram payload) w).stdout
          = w.stdout ++ [.decodeError err]) ↔ payload.length < 264) := by
  refine ⟨rfl, fieldNames_length, rfl, by decide, dataSize_eq, by decide, ?_, ?_⟩
  · intro p payload bufn hb
    simp only [ReadFromUDP, Option.some.injEq] at hb
    subst hb
    have hlen : (payload.take bufLen).length ≤ 264 := by
      rw [List.length_take, bufLen]; omega
    refine ⟨hlen, ?_, ?_⟩
    · intro hfull
      rw [binary_Read_eq, ReadFromBytes_of_le _ _ _ (by rw [hfull, bufLen])]
    · rw [binary_Read_eq]
      by_cases hc : 264 ≤ (payload.take bufLen).length
      · rw [ReadFromBytes_of_le _ _ _ hc]
        simp only [ne_eq, not_true_eq_false, false_iff]
        omega
      · rw [ReadFromBytes_of_lt _ _ _ (by omega)]
        simp only [ne_eq, reduceCtorEq, not_false_eq_true, true_iff]
        omega
  · intro p payload w
    by_cases hc : 264 ≤ payload.length
    · rw [HandleConnection_of_le p payload w hc]
      constructor
      · rintro ⟨err, he⟩
        have := congrArg List.length he
        simp at this
      · intro hlt
        omega
    · rw [HandleConnection_of_lt p payload w (by omega)]
      exact ⟨fun _ => by omega, fun _ => ⟨_, rfl⟩⟩


/-! ## The goroutine of RunServer -/

theorem run_cons (p : Platform) (s : Receiver) (e : Event) (evs : List Event) :
    RunServer.run p s (e :: evs) = RunServer.run p (RunServer.step p s e) evs := rfl

theorem run_append (p : Platform) (s : Receiver) (evs more : List Event) :
    RunServer.run p s (evs ++ more) = RunServer.run p (RunServer.run p s evs) more := by
  simp only [RunServer.run, List.foldl_append]

theorem step_recv_deliver (p : Platform) (s : Receiver) (o : ReadOutcome)
    (h : s.loc = .Listening) :
    RunServer.run p s [.select false o, .deliver]
      = { s with calls := s.calls + 1, proc := HandleConnection p o s.proc } := by
  obtain ⟨loc, socketOpen, panicked, calls, proc⟩ := s
  simp only at h
  subst h
  simp only [RunServer.run, List.foldl, RunServer.step, HandleConnection]
  cases hr : ReadFromUDP o with
  | none => simp [RunServer.step]
  | some bufn => simp [RunServer.step]

theorem step_stopped (p : Platform) (s : Receiver) (e : Event) (h : s.loc = .Stopped) :
    RunServer.step p s e = s := by
  obtain ⟨loc, socketOpen, panicked, calls, proc⟩ := s
  simp only at h
  subst h
  cases e <;> rfl

theorem run_stopped (p : Platform) (s : Receiver) (evs : List Event)
    (h : s.loc = .Stopped) : RunServer.run p s evs = s := by
  induction evs with
  | nil => rfl
  | cons e evs ih => rw [run_cons, step_stopped p s e h, ih]

theorem step_closed (p : Platform) (s : Receiver) (e : Event)
    (h : s.loc = .Idle ∨ s.loc = .Stopped → s.socketOpen = false) :
    (RunServer.step p s e).loc = .Idle ∨ (RunServer.step p s e).loc = .Stopped →
      (RunServer.step p s e).socketOpen = false := by
  obtain ⟨loc, socketOpen, panicked, calls, proc⟩ := s
  cases e with
  | start resolveOk listenOk =>
    cases loc <;> cases resolveOk <;> cases listenOk <;> simp_all [RunServer.step]
  | select quitClosed o =>
    cases loc <;> cases quitClosed <;> simp_all [RunServer.step]
    cases ReadFromUDP o <;> simp
  | deliver => cases loc <;> simp_all [RunServer.step]

theorem run_closed (p : Platform) (evs : List Event) (s : Receiver)
    (h : s.loc = .Idle ∨ s.loc = .Stopped → s.socketOpen = false) :
    (RunServer.run p s evs).loc = .Idle ∨ (RunServer.run p s evs).loc = .Stopped →
      (RunServer.run p s evs).socketOpen = false := by
  induction evs generalizing s with
  | nil => exact h
  | cons e evs ih => rw [run_cons]; exact ih _ (step_closed p s e h)

theorem run_receiveAll (p : Platform) (ds : List (List Byte)) (socketOpen panicked : Bool)
    (calls : Nat) (ch : List TelemetryData) (out : List Line)
    (h : ∀ d ∈ ds, d.length = 264) :
    RunServer.run p ⟨.Listening, socketOpen, panicked, calls, ⟨ch, out⟩⟩ (receiveAll ds)
      = ⟨.Listening, socketOpen, panicked, calls + ds.length,
          ⟨ch ++ ds.map (decoder.value p), out⟩⟩ := by
  induction ds generalizing calls ch with
  | nil => simp [receiveAll, RunServer.run]
  | cons d ds ih =>
    have hd : d.length = 264 := h d (List.mem_cons_self _ _)
    have h1 := step_recv_deliver p ⟨.Listening, socketOpen, panicked, calls, ⟨ch, out⟩⟩
      (.datagram d) rfl
    simp only [HandleConnection_of_le p d _ (by omega)] at h1
    have e : ∀ s, RunServer.run p s (receiveAll (d :: ds))
        = RunServer.run p (RunServer.run p s [.select false (.datagram d), .deliver]) (receiveAll ds) := fun _ => rfl
    rw [e, h1, ih (calls + 1) (ch ++ [decoder.value p d])
      (fun d' hd' => h d' (List.mem_cons_of_mem _ hd'))]
    simp only [List.length_cons, List.map_cons, List.append_assoc, List.singleton_append]
    congr 1
    omega

/-- C7: for every finite sequence of N valid 264-byte datagrams received one after
another by the receive loop, the sequence of samples sent on `dataChannel` has length
N and its i-th element is the decode of the i-th datagram: none is reordered,
duplicated or lost. -/
theorem receive_loop_keeps_order (p : Platform) (ds : List (List Byte))
    (h : ∀ d ∈ ds, d.length = 264) :
    (RunServer.run p Receiver.init (.start true true :: receiveAll ds)).proc.dataChannel
        = ds.map (fun d => (ReadFromBytes p d TelemetryData.zero).2) ∧
    (RunServer.run p Receiver.init (.start true true :: receiveAll ds)).proc.dataChannel.length
        = ds.length ∧
    (∀ i, i < ds.length →
      (RunServer.run p Receiver.init (.start true true :: receiveAll ds)).proc.dataChannel.get? i
        = (ds.get? i).map (fun d => (ReadFromBytes p d TelemetryData.zero).2)) ∧
    (RunServer.run p Receiver.init (.start true true :: receiveAll ds)).calls = ds.length := by
  have e : RunServer.run p Receiver.init (.start true true :: receiveAll ds)
      = RunServer.run p (RunServer.step p Receiver.init (.start true true)) (receiveAll ds) := rfl
  have hm : ds.map (fun d => (ReadFromBytes p d TelemetryData.zero).2)
      = ds.map (decoder.value p) := by
    apply List.map_congr_left
    intro d hd
    rw [ReadFromBytes_of_le p d _ (by rw [h d hd])]
  have e0 : RunServer.step p Receiver.init (.start true true)
      = { loc := .Listening, socketOpen := true, panicked := false, calls := 0,
          proc := { dataChannel := [], stdout := [] ++ [Line.listening] } } := rfl
  rw [e, e0, run_receiveAll p ds true false 0 [] _ h, ← hm]
  refine ⟨by simp, by simp, ?_, by simp⟩
  intro i _
  simp

theorem receive_loop_keeps_order_witness :
    (∀ d ∈ [scenarioDatagram, offsetRecord, scenarioDatagram], d.length = 264) ∧
    (RunServer.run amd64 Receiver.init
        (.start true true :: receiveAll [scenarioDatagram, offsetRecord, scenarioDatagram])
      ).proc.dataChannel
      = [scenarioDatagram, offsetRecord, scenarioDatagram].map
          (fun d => (ReadFromBytes amd64 d TelemetryData.zero).2) :=
  have hl : ∀ d ∈ [scenarioDatagram, offsetRecord, scenarioDatagram], d.length = 264 := by
    intro d hd
    simp only [List.mem_cons, List.mem_singleton, List.not_mem_nil, or_false] at hd
    rcases hd with rfl | rfl | rfl
    · exact scenarioDatagram_length
    · exact offsetRecord_length
    · exact scenarioDatagram_length
  ⟨hl, (receive_loop_keeps_order amd64 [scenarioDatagram, offsetRecord, scenarioDatagram] hl).1⟩

/-- C8: for every start of `RunServer` in which resolving the address fails or binding
the socket fails, the goroutine ends before the receive loop: whatever happens
afterwards, `HandleConnection` is never called, no sample is ever sent on
`dataChannel`, and no socket is open. -/
theorem startup_failure_is_fatal (p : Platform) (resolveOk listenOk : Bool)
    (evs : List Event) (h : resolveOk = false ∨ listenOk = false) :
    (RunServer.run p Receiver.init (.start resolveOk listenOk :: evs)).loc = .Stopped ∧
    (RunServer.run p Receiver.init (.start resolveOk listenOk :: evs)).calls = 0 ∧
    (RunServer.run p Receiver.init (.start resolveOk listenOk :: evs)).proc.dataChannel = [] ∧
    (RunServer.run p Receiver.init (.start resolveOk listenOk :: evs)).socketOpen = false := by
  have hs : (RunServer.step p Receiver.init (.start resolveOk listenOk)).loc = .Stopped := by
    rcases h with h | h
    · subst h; rfl
    · subst h; cases resolveOk <;> rfl
  rw [run_cons, run_stopped p _ evs hs]
  refine ⟨hs, ?_, ?_, ?_⟩ <;> cases resolveOk <;> cases listenOk <;> simp_all [RunServer.step, Receiver.init, Process.print]

theorem startup_failure_is_fatal_witness :
    (true = false ∨ false = false) ∧
    (RunServer.run amd64 Receiver.init
      [.start true false, .select false (.datagram scenarioDatagram), .deliver]).calls = 0 ∧
    (RunServer.run amd64 Receiver.init
      [.start true false, .select false (.datagram scenarioDatagram), .deliver]).proc.dataChannel
      = [] :=
  ⟨Or.inr rfl,
   (startup_failure_is_fatal amd64 true false
      [.select false (.datagram scenarioDatagram), .deliver] (Or.inr rfl)).2.1,
   (startup_failure_is_fatal amd64 true false
      [.select false (.datagram scenarioDatagram), .deliver] (Or.inr rfl)).2.2.1⟩

/-- C9: whenever `quit` is closed when the receive loop evaluates its `select`, the
receiver goes from `Listening` to `Stopped` without handling the datagram the network
holds, and the socket is closed; once `Stopped` nothing changes any more, so no sample
is ever sent again; and the only reachable states are `Idle`, `Listening`, `Decoding`
and `Stopped`. -/
theorem quit_stops_the_receiver (p : Platform) (s : Receiver) (o : ReadOutcome)
    (h : s.loc = .Listening) :
    (RunServer.step p s (.select true o)).loc = .Stopped ∧
    (RunServer.step p s (.select true o)).socketOpen = false ∧
    (RunServer.step p s (.select true o)).calls = s.calls ∧
    (RunServer.step p s (.select true o)).proc.dataChannel = s.proc.dataChannel ∧
    (∀ evs, RunServer.run p (RunServer.step p s (.select true o)) evs
      = RunServer.step p s (.select true o)) ∧
    (∀ evs, (RunServer.run p Receiver.init evs).loc = .Stopped →
      (RunServer.run p Receiver.init evs).socketOpen = false ∧
      ∀ more, RunServer.run p Receiver.init (evs ++ more) = RunServer.run p Receiver.init evs) ∧
    (∀ evs, (RunServer.run p Receiver.init evs).loc = .Idle ∨
      (RunServer.run p Receiver.init evs).loc = .Listening ∨
      (∃ bufn, (RunServer.run p Receiver.init evs).loc = .Decoding bufn) ∨
      (RunServer.run p Receiver.init evs).loc = .Stopped) := by
  obtain ⟨loc, socketOpen, panicked, calls, proc⟩ := s
  simp only at h
  subst h
  refine ⟨rfl, rfl, rfl, rfl, fun evs => run_stopped p _ evs rfl, ?_, ?_⟩
  · intro evs hst
    refine ⟨run_closed p evs Receiver.init (fun _ => rfl) (Or.inr hst), ?_⟩
    intro more
    rw [run_append, run_stopped p _ more hst]
  · intro evs
    cases (RunServer.run p Receiver.init evs).loc with
    | Idle => exact Or.inl rfl
    | Listening => exact Or.inr (Or.inl rfl)
    | Decoding bufn => exact Or.inr (Or.inr (Or.inl ⟨bufn, rfl⟩))
    | Stopped => exact Or.inr (Or.inr (Or.inr rfl))

theorem quit_stops_the_receiver_witness :
    (RunServer.step amd64 Receiver.init (.start true true)).loc = .Listening ∧
    (RunServer.step amd64 (RunServer.step amd64 Receiver.init (.start true true))
      (.select true (.datagram scenarioDatagram))).loc = .Stopped ∧
    (RunServer.step amd64 (RunServer.step amd64 Receiver.init (.start true true))
      (.select true (.datagram scenarioDatagram))).socketOpen = false :=
  ⟨rfl,
   (quit_stops_the_receiver amd64 (RunServer.step amd64 Receiver.init (.start true true))
      (.datagram scenarioDatagram) rfl).1,
   (quit_stops_the_receiver amd64 (RunServer.step amd64 Receiver.init (.start true true))
      (.datagram scenarioDatagram) rfl).2.1⟩

/-! ## Further properties of the receiver -/

/-- A datagram longer than the buffer is cut to its first 264 bytes:
`HandleConnection` prints nothing and sends exactly one sample, the decode of those
bytes. -/
theorem HandleConnection_oversized_datagram (p : Platform) (payload : List Byte)
    (w : Process) (h : 264 < payload.length) :
    HandleConnection p (.datagram payload) w
      = { w with dataChannel :=
            w.dataChannel ++ [(ReadFromBytes p (payload.take 264) TelemetryData.zero).2] } := by
  have hl : 264 ≤ (payload.take 264).length := by rw [List.length_take]; omega
  rw [HandleConnection_of_le p payload w (by omega), ReadFromBytes_of_le p _ _ hl,
    value_take p payload 264 (by omega)]

theorem HandleConnection_oversized_datagram_witness :
    264 < (scenarioDatagram ++ [7, 7, 7]).length ∧
    HandleConnection amd64 (.datagram (scenarioDatagram ++ [7, 7, 7]))
        { dataChannel := [], stdout := [] }
      = { dataChannel :=
            [(ReadFromBytes amd64 ((scenarioDatagram ++ [7, 7, 7]).take 264)
                TelemetryData.zero).2],
          stdout := [] } :=
  have hl : 264 < (scenarioDatagram ++ [7, 7, 7]).length := by
    rw [List.length_append, scenarioDatagram_length]; decide
  ⟨hl, HandleConnection_oversized_datagram amd64 (scenarioDatagram ++ [7, 7, 7])
    { dataChannel := [], stdout := [] } hl⟩

/-- A failed read does not end ingestion: it is reported, nothing is sent, and the
valid datagrams received afterwards are all delivered, in order. -/
theorem read_error_keeps_receiving (p : Platform) (ds : List (List Byte))
    (h : ∀ d ∈ ds, d.length = 264) :
    (RunServer.run p Receiver.init
        (.start true true :: .select false .failed :: receiveAll ds)).proc.dataChannel
      = ds.map (fun d => (ReadFromBytes p d TelemetryData.zero).2) ∧
    (RunServer.run p Receiver.init
        (.start true true :: .select false .failed :: receiveAll ds)).proc.stdout
      = [.listening, .errorReading, .readError] ∧
    (RunServer.run p Receiver.init
        (.start true true :: .select false .failed :: receiveAll ds)).calls
      = ds.length + 1 := by
  have e : RunServer.run p Receiver.init
        (.start true true :: .select false .failed :: receiveAll ds)
      = RunServer.run p ⟨.Listening, true, false, 1,
          ⟨[], [.listening, .errorReading, .readError]⟩⟩ (receiveAll ds) := rfl
  have hm : ds.map (fun d => (ReadFromBytes p d TelemetryData.zero).2)
      = ds.map (decoder.value p) := by
    apply List.map_congr_left
    intro d hd
    rw [ReadFromBytes_of_le p d _ (by rw [h d hd])]
  rw [e, run_receiveAll p ds true false 1 [] _ h, hm]
  refine ⟨by simp, rfl, ?_⟩
  show 1 + ds.length = ds.length + 1
  omega

theorem read_error_keeps_receiving_witness :
    (∀ d ∈ [scenarioDatagram], d.length = 264) ∧
    (RunServer.run amd64 Receiver.init
        (.start true true :: .select false .failed :: receiveAll [scenarioDatagram])
      ).proc.dataChannel
      = [scenarioDatagram].map (fun d => (ReadFromBytes amd64 d TelemetryData.zero).2) :=
  have hl : ∀ d ∈ [scenarioDatagram], d.length = 264 := by
    intro d hd
    rw [List.mem_singleton] at hd
    rw [hd]
    exact scenarioDatagram_length
  ⟨hl, (read_error_keeps_receiving amd64 [scenarioDatagram] hl).1⟩

/-- The error of `ReadFromBytes` on a short input is `io.EOF` when the input is
empty and `io.ErrUnexpectedEOF` when it holds between 1 and 263 bytes. -/
theorem ReadFromBytes_error_kind (p : Platform) (data : List Byte) (t : TelemetryData)
    (h : data.length < 264) :
    (ReadFromBytes p data t).1
      = some (if data.length = 0 then ioError.EOF else ioError.ErrUnexpectedEOF) := by
  rw [ReadFromBytes_of_lt p data t h]

theorem ReadFromBytes_error_kind_witness :
    ([] : List Byte).length < 264 ∧
    (ReadFromBytes amd64 [] TelemetryData.zero).1 = some ioError.EOF :=
  ⟨by decide, ReadFromBytes_error_kind amd64 [] TelemetryData.zero (by decide)⟩

end Telemetry
